import Mathlib

/-!
Verification of the agent-routing core (agent_router/router.py and
agent_router/coordination.py) against its natural-language specification.

Modelling conventions:
- Python strings are embedded as `List Char`; task text and catalog data in
  the claims are ASCII, so `Char.toLower` models Python str.lower and the
  ASCII parts of the Python whitespace and word-character classes suffice.
- Python floats are embedded as rationals; every score the router builds is
  an integer multiple of 1/2 and every confidence a multiple of 1/20, so the
  arithmetic of the source is exact and the embedding introduces no rounding.
- Python regexes are used by the source only in fixed shapes (whole-word
  search, word .* word, literal \s+ alternative); each shape is embedded as
  an executable search over match positions.
- Python dicts holding agent records are embedded as the structure `Agent`;
  the catalog (agents.yaml is data, not code) is a parameter of every
  definition, as a flat list in the iteration order of get_all_agents.
-/

namespace AgencyAgents

/-- Character list of a Lean string literal, the representation of Python
    strings used throughout this development. -/
def str (s : String) : List Char := s.data

/-- Python str.lower (ASCII range). -/
def lowerStr (s : List Char) : List Char := s.map Char.toLower

/-- Python whitespace class (re \s, str.split, str.strip), ASCII part. -/
def pySpace (c : Char) : Bool :=
  c = ' ' || c = '\t' || c = '\n' || c = '\r' || c = '\x0b' || c = '\x0c'

/-- Python str.strip: drop leading and trailing whitespace. -/
def pyStrip (s : List Char) : List Char :=
  ((s.dropWhile pySpace).reverse.dropWhile pySpace).reverse

/-- Python substring containment, the in operator on str. -/
def isSubstr (pat s : List Char) : Bool :=
  (List.range (s.length + 1)).any (fun i => pat.isPrefixOf (s.drop i))

/-- Python regex word character \w (ASCII part): letters, digits, underscore. -/
def isWordChar (c : Char) : Bool := c.isAlphanum || c = '_'

/-- Whether index i of s holds a word character (out of range: non-word). -/
def wordAt (s : List Char) (i : Nat) : Bool :=
  match s.get? i with
  | some c => isWordChar c
  | none => false

/-- re word boundary \b between positions i-1 and i of s. -/
def boundary (s : List Char) (i : Nat) : Bool :=
  (if i = 0 then false else wordAt s (i - 1)) != wordAt s i

/-- Match of the regex \b pat \b at position i of s (pat taken literally, as
    produced by re.escape). -/
def wholeWordAt (pat s : List Char) (i : Nat) : Bool :=
  pat.isPrefixOf (s.drop i) && boundary s i && boundary s (i + pat.length)

/-- re.search of \b pat \b anywhere in s. -/
def wholeWordMatch (pat s : List Char) : Bool :=
  (List.range (s.length + 1)).any (fun i => wholeWordAt pat s i)

/-- All characters of s with index in [a, b) differ from newline: the regex
    dot without DOTALL cannot cross a newline. -/
def noNewline (s : List Char) (a b : Nat) : Bool :=
  ((s.drop a).take (b - a)).all (fun c => c != '\n')

/-- re.search of \b(alt1|...)\b.*\b(alt2|...)\b in s: a whole-word match of
    some first alternative ending at position i + w1.length, then, with no
    newline in between, a whole-word match of some second alternative. -/
def altsThenAlts (alts1 alts2 : List (List Char)) (s : List Char) : Bool :=
  (List.range (s.length + 1)).any (fun i =>
    alts1.any (fun w1 =>
      wholeWordAt w1 s i &&
      (List.range (s.length + 1)).any (fun k =>
        decide (i + w1.length ≤ k) && noNewline s (i + w1.length) k &&
        alts2.any (fun w2 => wholeWordAt w2 s k))))

/-- re.search of lit\s+(alt1|...) in s: the literal, one or more whitespace
    characters, then an alternative. Every alternative used by the source
    starts with a non-whitespace character, so the whitespace run matched by
    the greedy \s+ is exactly the maximal one. -/
def litSpaceAlts (lit : List Char) (alts : List (List Char)) (s : List Char) : Bool :=
  (List.range (s.length + 1)).any (fun i =>
    lit.isPrefixOf (s.drop i) &&
    (let rest := s.drop (i + lit.length)
     let ws := rest.takeWhile pySpace
     !ws.isEmpty && alts.any (fun w => w.isPrefixOf (rest.drop ws.length))))

/-- Number of whitespace-separated words, Python len(s.split()).
    The boolean argument records whether the previous character was part of
    a word. -/
def wordCountAux : List Char → Bool → Nat
  | [], _ => 0
  | c :: cs, inWord =>
    if pySpace c then wordCountAux cs false
    else if inWord then wordCountAux cs true
    else 1 + wordCountAux cs true

/-- Python len(s.split()). -/
def wordCount (s : List Char) : Nat := wordCountAux s false

/-- A specialist record of the catalog. Only the fields the routing core
    reads are modelled; description and file_path are ignored by it. -/
structure Agent where
  name : List Char
  category : List Char
  keywords : List (List Char)
  isDefault : Bool
deriving Repr, DecidableEq

/-- Agent names hard-coded in the pattern detectors of the source. -/
def fdName : List Char := str "Frontend Developer"

def baName : List Char := str "Backend Architect"

def uiName : List Char := str "UI Designer"

def rcName : List Char := str "Reality Checker"

def devopsName : List Char := str "DevOps Engineer"

/-- The four verbs of the design-implementation regex (also the substring
    test for the testing phase of the planner). -/
def buildVerbs : List (List Char) := [str "build", str "implement", str "create", str "develop"]

/-- The source idiom: if x not in l, append x. -/
def appendIfAbsent (l : List (List Char)) (x : List Char) : List (List Char) :=
  if x ∈ l then l else l ++ [x]

/-- Detector stage 1 of _detect_multi_agent_patterns: full-stack pattern. -/
def pat1 (t : List Char) : List (List Char) :=
  if isSubstr (str "full-stack") t || isSubstr (str "fullstack") t then
    [fdName, baName] else []

/-- Detector stage 2: design + implementation pattern (in either order). -/
def pat2 (t : List Char) : List (List Char) :=
  pat1 t ++
  (if altsThenAlts [str "design"] buildVerbs t || altsThenAlts buildVerbs [str "design"] t then
     [uiName, fdName] else [])

/-- Detector stage 3: explicit frontend + backend (or api) combination; the
    elif branch of the source is kept even though it can never fire. -/
def pat3 (t : List Char) : List (List Char) :=
  pat2 t ++
  (if isSubstr (str "frontend") t && (isSubstr (str "backend") t || isSubstr (str "api") t) then
     [fdName, baName]
   else if isSubstr (str "backend") t && isSubstr (str "frontend") t then
     [fdName, baName]
   else [])

/-- The build/implement/create + test/qa/quality trigger, excluding test
    artifacts such as test reports. -/
def buildTestTrigger (t : List Char) : Bool :=
  (buildVerbs.take 3).any (fun w => wholeWordMatch w t) &&
  [str "test", str "qa", str "quality"].any (fun w => wholeWordMatch w t) &&
  !litSpaceAlts (str "test") [str "report", str "documentation", str "evidence"] t

/-- Detector stage 4: Reality Checker for build-and-test tasks, plus the
    context-appropriate builder. -/
def pat4 (t : List Char) : List (List Char) :=
  if buildTestTrigger t then
    let b := pat3 t ++ [rcName]
    if isSubstr (str "api") t || isSubstr (str "backend") t || isSubstr (str "endpoint") t then
      appendIfAbsent b baName
    else if isSubstr (str "frontend") t || isSubstr (str "ui") t || isSubstr (str "component") t then
      appendIfAbsent b fdName
    else b
  else pat3 t

/-- Detector stage 5: deploy pattern. -/
def pat5 (t : List Char) : List (List Char) :=
  pat4 t ++
  (if isSubstr (str "deploy") t || isSubstr (str "deployment") t || isSubstr (str "devops") t then
     [devopsName] else [])

/-- Detector stage 6: standalone design (except backend/system architecture
    design). -/
def pat6 (t : List Char) : List (List Char) :=
  if wholeWordMatch (str "design") t &&
     !litSpaceAlts (str "design")
       [str "architecture", str "database", str "api", str "event-driven", str "microservices"] t then
    appendIfAbsent (pat5 t) uiName
  else pat5 t

/-- AgentRouter._detect_multi_agent_patterns before the final set
    deduplication: stage 7 adds the dashboard pattern (the input t is the
    already lower-cased task). -/
def patternAgentsRaw (t : List Char) : List (List Char) :=
  if isSubstr (str "dashboard") t then
    appendIfAbsent (appendIfAbsent (pat6 t) uiName) fdName
  else pat6 t

/-- The detector output after list(set(...)). The source returns the set in
    arbitrary iteration order; downstream only membership and the number of
    distinct names are used, both order-independent, so the set is modelled
    by first-occurrence deduplication. -/
def patternAgents (t : List Char) : List (List Char) := (patternAgentsRaw t).dedup

/-- Contribution of a single keyword inside AgentRouter._calculate_agent_score:
    whole-word match scores 2.0 plus 0.5 per word beyond the first (Python
    int subtraction, hence the cast before subtracting 1), substring match
    scores 1.0. -/
def keywordPoints (taskLower kw : List Char) : ℚ :=
  let kl := lowerStr kw
  if wholeWordMatch kl taskLower then 2 + ((wordCount kl : ℚ) - 1) * (1 / 2)
  else if isSubstr kl taskLower then 1
  else 0

/-- AgentRouter._calculate_agent_score: accumulate keyword contributions,
    then a flat 5.0 when the lower-cased agent name occurs in the task. -/
def calculateAgentScore (taskLower : List Char) (agent : Agent) : ℚ :=
  (agent.keywords.foldl (fun s kw => s + keywordPoints taskLower kw) 0)
  + (if isSubstr (lowerStr agent.name) taskLower then 5 else 0)

/-- The keyword score plus the flat +3.0 boost that analyze_task applies to
    agents named by the pattern detectors. -/
def boostedScore (taskLower : List Char) (agent : Agent) : ℚ :=
  calculateAgentScore taskLower agent
  + (if agent.name ∈ patternAgents taskLower then 3 else 0)

/-- The candidate list of analyze_task: every catalog agent with positive
    boosted score, in catalog order. -/
def scoredAgents (catalog : List Agent) (taskLower : List Char) : List (Agent × ℚ) :=
  catalog.filterMap (fun a =>
    let s := boostedScore taskLower a
    if 0 < s then some (a, s) else none)

/-- Order used to model Python list.sort(key=score, reverse=True), which is
    stable: decorated candidates compare by score descending, ties broken by
    original position ascending. -/
def scoredBefore (x y : Nat × Agent × ℚ) : Prop :=
  y.2.2 < x.2.2 ∨ (x.2.2 = y.2.2 ∧ x.1 ≤ y.1)

instance : DecidableRel scoredBefore := fun x y =>
  inferInstanceAs (Decidable (y.2.2 < x.2.2 ∨ (x.2.2 = y.2.2 ∧ x.1 ≤ y.1)))

instance : IsTotal (Nat × Agent × ℚ) scoredBefore := by
  constructor
  intro x y
  rcases lt_trichotomy x.2.2 y.2.2 with h | h | h
  · exact Or.inr (Or.inl h)
  · rcases Nat.le_total x.1 y.1 with h1 | h1
    · exact Or.inl (Or.inr ⟨h, h1⟩)
    · exact Or.inr (Or.inr ⟨h.symm, h1⟩)
  · exact Or.inl (Or.inl h)

instance : IsTrans (Nat × Agent × ℚ) scoredBefore := by
  constructor
  intro x y z hxy hyz
  rcases hxy with h1 | h1
  · rcases hyz with h2 | h2
    · exact Or.inl (h2.trans h1)
    · exact Or.inl (h2.1 ▸ h1)
  · rcases hyz with h2 | h2
    · exact Or.inl (h2.trans_eq h1.1.symm)
    · exact Or.inr ⟨h1.1.trans h2.1, h1.2.trans h2.2⟩

/-- Stable descending sort by score (Python agent_scores.sort with
    reverse=True): decorate with the original index, sort by the total order
    scoredBefore, strip the index. -/
def sortScored (l : List (Agent × ℚ)) : List (Agent × ℚ) :=
  (List.insertionSort scoredBefore l.enum).map (fun p => p.2)

/-- Result record of analyze_task. -/
structure Analysis where
  isMultiAgent : Bool
  requiredAgents : List Agent
  confidenceScore : ℚ
deriving Repr, DecidableEq

/-- The filler record behind the model of AgentConfig.get_default_agent on a
    catalog with neither a default nor an engineering record, where the
    source would raise IndexError; no claim exercises that corner. -/
def noAgent : Agent := { name := [], category := [], keywords := [], isDefault := false }

/-- AgentConfig.get_default_agent: the record flagged is_default, else the
    first engineering record. -/
def getDefaultAgent (catalog : List Agent) : Agent :=
  match catalog.find? (fun a => a.isDefault) with
  | some a => a
  | none =>
    match catalog.find? (fun a => a.category == str "engineering") with
    | some a => a
    | none => noAgent

/-- The similar-agents window of the multi-candidate branch: candidates
    scoring at least 0.6 of the top score, in sorted order. -/
def similarBase (sorted : List (Agent × ℚ)) (topScore : ℚ) : List Agent :=
  (sorted.filter (fun p => topScore * (3 / 5) ≤ p.2)).map (fun p => p.1)

/-- The loop of analyze_task that appends pattern-detected agents scoring at
    least 2.0 and not already present. -/
def addPatternAgents (patterns : List (List Char)) (sorted : List (Agent × ℚ))
    (base : List Agent) : List Agent :=
  sorted.foldl (fun acc p =>
    if p.1.name ∈ patterns ∧ 2 ≤ p.2 ∧ p.1 ∉ acc then acc ++ [p.1] else acc) base

/-- The full similar-candidates list built in the multi-candidate branch of
    analyze_task (empty when there are no scored candidates at all). -/
def similarCandidates (catalog : List Agent) (task : List Char) : List Agent :=
  let taskLower := lowerStr task
  match sortScored (scoredAgents catalog taskLower) with
  | [] => []
  | top :: rest =>
    addPatternAgents (patternAgents taskLower) (top :: rest) (similarBase (top :: rest) top.2)

/-- AgentRouter.analyze_task. -/
def analyzeTask (catalog : List Agent) (task : List Char) : Analysis :=
  let taskLower := lowerStr task
  let patterns := patternAgents taskLower
  match sortScored (scoredAgents catalog taskLower) with
  | [] =>
    { isMultiAgent := false
      requiredAgents := [getDefaultAgent catalog]
      confidenceScore := 0 }
  | top :: rest =>
    if top.2 < 2 then
      { isMultiAgent := false
        requiredAgents := [getDefaultAgent catalog]
        confidenceScore := min (1 / 10 + top.2 * (1 / 20)) (3 / 10) }
    else if rest = [] then
      { isMultiAgent := false
        requiredAgents := [top.1]
        confidenceScore := min (3 / 10 + top.2 * (1 / 10)) 1 }
    else
      let similar := addPatternAgents patterns (top :: rest) (similarBase (top :: rest) top.2)
      let conf := min (3 / 10 + top.2 * (1 / 10)) 1
      if 1 < similar.length then
        if 1 < ((similar.map (fun a => a.category)).dedup).length
           ∨ (1 < ((similar.map (fun a => a.name)).dedup).length ∧ (5 / 2 : ℚ) ≤ top.2)
           ∨ 1 < patterns.length then
          { isMultiAgent := true, requiredAgents := similar.take 5, confidenceScore := conf }
        else
          { isMultiAgent := false, requiredAgents := [top.1], confidenceScore := conf }
      else
        { isMultiAgent := false, requiredAgents := [top.1], confidenceScore := conf }

/-- AgentRouter.select_agent. Non-string or falsy input is normalised by the
    source to the empty string, modelled by the empty character list. After
    stripping, a nonempty string is never all-whitespace, so the isspace
    test of the source collapses into the emptiness test. -/
def selectAgent (catalog : List Agent) (task : List Char) : Agent :=
  let t := pyStrip task
  if t = [] then getDefaultAgent catalog
  else
    let analysis := analyzeTask catalog t
    if analysis.isMultiAgent ∧ analysis.requiredAgents ≠ [] then
      analysis.requiredAgents.headD (getDefaultAgent catalog)
    else if analysis.requiredAgents ≠ [] then
      analysis.requiredAgents.headD (getDefaultAgent catalog)
    else getDefaultAgent catalog

/-! ### Planner (agent_router/coordination.py) -/

/-- A step of the coordination sequence. The source stores the duration as
    the string "N hours" and parses back its leading number in
    _estimate_time; the number itself is modelled. -/
structure Step where
  stepNumber : Nat
  agent : List Char
  action : List Char
  deliverable : List Char
  durationHours : ℚ
  protocols : List (List Char)
deriving Repr, DecidableEq

/-- A handoff point between two consecutive steps of different agents. -/
structure Handoff where
  fromAgent : List Char
  toAgent : List Char
  deliverable : List Char
  successCriteria : List (List Char)
deriving Repr, DecidableEq

/-- An entry of the agents list of a plan (role duplicates category in the
    source; responsibilities are derived from category and name). -/
structure AgentDetail where
  name : List Char
  category : List Char
  responsibilities : List (List Char)
deriving Repr, DecidableEq

/-- CoordinationPlanner.generate_plan result. estimatedHours models
    estimated_time.total; the per-step breakdown map repeats the durations
    already present in sequence and is not separately modelled. -/
structure Plan where
  task : List Char
  agents : List AgentDetail
  sequence : List Step
  handoffPoints : List Handoff
  dependencies : List (Nat × List Nat)
  estimatedHours : ℚ
  parallelGroups : List (List (List Char))
deriving Repr, DecidableEq

/-- CoordinationPlanner._get_agent_responsibilities (its task parameter is
    unused by the source). -/
def responsibilities (agent : Agent) : List (List Char) :=
  if agent.category = str "design" then
    [str "Create design mockups and wireframes",
     str "Define user experience flows",
     str "Establish design system and components"]
  else if agent.category = str "engineering" then
    if isSubstr (str "Frontend") agent.name then
      [str "Implement UI components",
       str "Integrate with backend APIs",
       str "Ensure responsive design"]
    else if isSubstr (str "Backend") agent.name then
      [str "Design and implement API endpoints",
       str "Setup database schema",
       str "Handle business logic"]
    else
      [str "Gather and document requirements",
       str "Design technical architecture",
       str "Implement core functionality"]
  else if agent.category = str "testing" then
    [str "Write comprehensive test cases",
     str "Perform integration testing",
     str "Validate against requirements"]
  else if agent.category = str "product" then
    [str "Define product requirements",
     str "Prioritize features",
     str "Coordinate between teams"]
  else
    [str "Complete assigned tasks",
     str "Follow development protocols",
     str "Deliver quality work"]

/-- Design-role test used by _generate_sequence: name contains Designer or UX. -/
def isDesignRole (a : Agent) : Bool :=
  isSubstr (str "Designer") a.name || isSubstr (str "UX") a.name

/-- Tester-role test used by _generate_sequence: name contains Tester or Checker. -/
def isTestRole (a : Agent) : Bool :=
  isSubstr (str "Tester") a.name || isSubstr (str "Checker") a.name

/-- CoordinationPlanner._get_implementation_action. -/
def implAction (a : Agent) : List Char :=
  if isSubstr (str "Frontend") a.name then str "Implement frontend components and user interface"
  else if isSubstr (str "Backend") a.name then str "Implement backend APIs and business logic"
  else if isSubstr (str "Mobile") a.name then str "Implement mobile application features"
  else if isSubstr (str "AI") a.name then str "Implement AI models and integration"
  else if isSubstr (str "DevOps") a.name then str "Setup deployment pipeline and infrastructure"
  else str "Implement core functionality and features"

/-- CoordinationPlanner._get_implementation_deliverable. -/
def implDeliverable (a : Agent) : List Char :=
  if isSubstr (str "Frontend") a.name then str "Working frontend with all UI components"
  else if isSubstr (str "Backend") a.name then str "Functional backend with tested API endpoints"
  else if isSubstr (str "Mobile") a.name then str "Tested mobile application build"
  else if isSubstr (str "AI") a.name then str "Trained models and integration code"
  else if isSubstr (str "DevOps") a.name then str "Deployment pipeline and infrastructure code"
  else str "Implemented functionality with tests"

/-- Payload of a step before numbering. -/
structure StepData where
  agent : List Char
  action : List Char
  deliverable : List Char
  durationHours : ℚ
  protocols : List (List Char)
deriving Repr, DecidableEq

/-- The incrementing step_number counter of _generate_sequence: the n-th
    appended row receives number n. -/
def numberRows : Nat → List StepData → List Step
  | _, [] => []
  | n, d :: ds =>
    { stepNumber := n, agent := d.agent, action := d.action,
      deliverable := d.deliverable, durationHours := d.durationHours,
      protocols := d.protocols } :: numberRows (n + 1) ds

/-- Step 1 of _generate_sequence: requirements gathering by the primary
    agent. -/
def reqRow (primary : Agent) : StepData :=
  { agent := primary.name,
    action := str "Gather and document requirements",
    deliverable := str "Requirements document with clear specifications",
    durationHours := 2,
    protocols := [str "Requirements gathering first", str "Create TODO list",
                  str "Git branch setup"] }

/-- Design phase of _generate_sequence: one step for the first
    designer-role agent, if any (has_designer followed by next in the
    source). -/
def designRows (agents : List Agent) : List StepData :=
  match agents.find? isDesignRole with
  | some d =>
    [{ agent := d.name,
       action := str "Design system architecture and user interface",
       deliverable := str "Design mockups, wireframes, and component library",
       durationHours := 4,
       protocols := [str "Follow design system", str "Create reusable components",
                     str "Document decisions"] }]
  | none => []

/-- Implementation phase of _generate_sequence: one step per agent that is
    neither designer- nor tester-role, in agents order. -/
def implRows (agents : List Agent) : List StepData :=
  (agents.filter (fun a => !isDesignRole a && !isTestRole a)).map (fun a =>
    { agent := a.name, action := implAction a, deliverable := implDeliverable a,
      durationHours := 6,
      protocols := [str "Test-first development", str "Git commits",
                    str "Virtual environment", str "Follow TODO list"] })

/-- Testing phase of _generate_sequence: one step when the lower-cased task
    mentions build/implement/create/develop, by the first tester-role agent
    or the primary agent. -/
def testRows (agents : List Agent) (primary : Agent) (taskLower : List Char) : List StepData :=
  if buildVerbs.any (fun w => isSubstr w taskLower) then
    [{ agent := ((agents.find? isTestRole).getD primary).name,
       action := str "Test implementation and validate requirements",
       deliverable := str "Test results, bug reports, and validation report",
       durationHours := 3,
       protocols := [str "Comprehensive testing", str "Test coverage", str "QA checklist"] }]
  else []

/-- Deployment phase of _generate_sequence: one step when the lower-cased
    task mentions deploy/deployment/production/release, by the first
    DevOps-named agent or the primary agent. -/
def deployRows (agents : List Agent) (primary : Agent) (taskLower : List Char) : List StepData :=
  if [str "deploy", str "deployment", str "production", str "release"].any
       (fun w => isSubstr w taskLower) then
    [{ agent := ((agents.find? (fun a => isSubstr (str "DevOps") a.name)).getD primary).name,
       action := str "Deploy to production and setup monitoring",
       deliverable := str "Deployed application with monitoring and CI/CD pipeline",
       durationHours := 4,
       protocols := [str "Infrastructure as code", str "Automated deployment",
                     str "Monitoring setup"] }]
  else []

/-- The rows appended by _generate_sequence, in order, before numbering. -/
def sequenceRows (agents : List Agent) (primary : Agent) (task : List Char) : List StepData :=
  reqRow primary ::
    (designRows agents ++ implRows agents ++ testRows agents primary (lowerStr task)
      ++ deployRows agents primary (lowerStr task))

/-- CoordinationPlanner._generate_sequence. On an empty agents list the
    source raises IndexError at agents[0], modelled as none. -/
def generateSequence (agents : List Agent) (task : List Char) : Option (List Step) :=
  match agents with
  | [] => none
  | primary :: _ => some (numberRows 1 (sequenceRows agents primary task))

/-- CoordinationPlanner._get_success_criteria (its to_step parameter is
    unused by the source). -/
def successCriteria (fromStep : Step) : List (List Char) :=
  [str "All deliverables completed and documented", str "Code committed to git repository"]
  ++ (if isSubstr (str "requirements") (lowerStr fromStep.action) then
        [str "Requirements clearly defined and validated", str "Acceptance criteria documented"]
      else [])
  ++ (if isSubstr (str "design") (lowerStr fromStep.action) then
        [str "Design approved by stakeholders", str "All components documented"]
      else [])
  ++ (if isSubstr (str "implement") (lowerStr fromStep.action) then
        [str "All tests passing", str "Code review completed"]
      else [])

/-- The consecutive step pairs iterated by _generate_handoffs. -/
def adjacentPairs (sequence : List Step) : List (Step × Step) := sequence.zip sequence.tail

/-- CoordinationPlanner._generate_handoffs (its agents parameter is unused
    by the source): one handoff per consecutive pair of steps with
    different agents, carrying the deliverable of the earlier step. -/
def generateHandoffs (sequence : List Step) : List Handoff :=
  (adjacentPairs sequence).filterMap (fun p =>
    if p.1.agent ≠ p.2.agent then
      some { fromAgent := p.1.agent, toAgent := p.2.agent,
             deliverable := p.1.deliverable, successCriteria := successCriteria p.1 }
    else none)

/-- CoordinationPlanner._map_dependencies: every step with number above one
    maps to the singleton of its predecessor; numbers are distinct by
    construction, so the Python dict is modelled as an association list. -/
def mapDependencies (sequence : List Step) : List (Nat × List Nat) :=
  sequence.filterMap (fun s =>
    if 1 < s.stepNumber then some (s.stepNumber, [s.stepNumber - 1]) else none)

/-- CoordinationPlanner._estimate_time, total field: the sum of the leading
    numbers of the duration strings. -/
def estimateHours (sequence : List Step) : ℚ :=
  (sequence.map (fun s => s.durationHours)).sum

/-- CoordinationPlanner._identify_parallel_work (its task parameter is
    unused by the source). When both a Frontend-named and a Backend-named
    agent are involved, the source appends the literal name pair
    Frontend Developer / Backend Architect, not the names of the involved agents. -/
def identifyParallelWork (agents : List Agent) : List (List (List Char)) :=
  let g1 := if agents.any (fun a => isSubstr (str "Frontend") a.name)
               && agents.any (fun a => isSubstr (str "Backend") a.name) then
              [[fdName, baName]] else []
  let g2 := if 3 ≤ agents.length then
              let impl := (agents.filter (fun a =>
                !isSubstr (str "Designer") a.name && !isSubstr (str "Tester") a.name
                && !isSubstr (str "Product") a.name)).map (fun a => a.name)
              if 2 ≤ impl.length then [impl] else []
            else []
  g1 ++ g2

/-- The body of CoordinationPlanner.generate_plan once the involved agents
    list has been fixed. -/
def generatePlanWith (agents : List Agent) (task : List Char) : Option Plan :=
  match generateSequence agents task with
  | none => none
  | some seq =>
    some { task := task
           agents := agents.map (fun a =>
             { name := a.name, category := a.category, responsibilities := responsibilities a })
           sequence := seq
           handoffPoints := generateHandoffs seq
           dependencies := mapDependencies seq
           estimatedHours := estimateHours seq
           parallelGroups := identifyParallelWork agents }

/-- CoordinationPlanner.generate_plan: the multi-agent analysis list, or the
    single agent chosen by select_agent. -/
def generatePlan (catalog : List Agent) (task : List Char) : Option Plan :=
  let analysis := analyzeTask catalog task
  let agents := if analysis.isMultiAgent then analysis.requiredAgents
                else [selectAgent catalog task]
  generatePlanWith agents task

/-! ### Supporting lemmas -/

theorem foldl_add_eq_sum {α : Type} (f : α → ℚ) (l : List α) (c : ℚ) :
    l.foldl (fun s x => s + f x) c = c + (l.map f).sum := by
  induction l generalizing c with
  | nil => simp
  | cons x xs ih => simp [ih, add_assoc]

theorem mem_sortScored {l : List (Agent × ℚ)} {x : Agent × ℚ} :
    x ∈ sortScored l ↔ x ∈ l := by
  unfold sortScored
  constructor
  · intro hx
    rcases List.mem_map.1 hx with ⟨d, hd, hdx⟩
    have hd2 : d ∈ l.enum := (List.perm_insertionSort scoredBefore l.enum).mem_iff.1 hd
    have : d.2 ∈ List.map Prod.snd l.enum := List.mem_map_of_mem _ hd2
    rw [List.enum_map_snd] at this
    exact hdx ▸ this
  · intro hx
    have hx2 : x ∈ List.map Prod.snd l.enum := by rw [List.enum_map_snd]; exact hx
    rcases List.mem_map.1 hx2 with ⟨d, hd, hdx⟩
    have : d ∈ List.insertionSort scoredBefore l.enum :=
      (List.perm_insertionSort scoredBefore l.enum).mem_iff.2 hd
    exact hdx ▸ List.mem_map_of_mem _ this

theorem length_sortScored (l : List (Agent × ℚ)) : (sortScored l).length = l.length := by
  unfold sortScored
  rw [List.length_map, (List.perm_insertionSort scoredBefore l.enum).length_eq,
    List.enum_length]

theorem sortScored_head_ge {l : List (Agent × ℚ)} {top : Agent × ℚ} {rest : List (Agent × ℚ)}
    (h : sortScored l = top :: rest) : ∀ q ∈ l, q.2 ≤ top.2 := by
  intro q hq
  unfold sortScored at h
  cases hs : List.insertionSort scoredBefore l.enum with
  | nil => rw [hs] at h; simp at h
  | cons d ds =>
    rw [hs] at h
    simp only [List.map_cons, List.cons.injEq] at h
    have hsorted := List.sorted_insertionSort scoredBefore l.enum
    rw [hs] at hsorted
    have hq2 : q ∈ List.map Prod.snd l.enum := by rw [List.enum_map_snd]; exact hq
    rcases List.mem_map.1 hq2 with ⟨dec, hdec, hdecq⟩
    have hdec2 : dec ∈ d :: ds := by
      rw [← hs]
      exact (List.perm_insertionSort scoredBefore l.enum).mem_iff.2 hdec
    have hle : dec.2.2 ≤ d.2.2 := by
      rcases List.mem_cons.1 hdec2 with h1 | h1
      · rw [h1]
      · rcases List.rel_of_sorted_cons hsorted dec h1 with h2 | h2
        · exact le_of_lt h2
        · exact le_of_eq h2.1.symm
    rw [← hdecq, ← h.1]
    exact hle

theorem mem_scoredAgents_pos {catalog : List Agent} {tl : List Char} {p : Agent × ℚ}
    (h : p ∈ scoredAgents catalog tl) : 0 < p.2 := by
  unfold scoredAgents at h
  rcases List.mem_filterMap.1 h with ⟨a, _, hf⟩
  simp only at hf
  by_cases hs : 0 < boostedScore tl a
  · rw [if_pos hs] at hf
    cases hf
    exact hs
  · rw [if_neg hs] at hf
    cases hf

theorem mem_scoredAgents_of_pos {catalog : List Agent} {tl : List Char} {a : Agent}
    (ha : a ∈ catalog) (hpos : 0 < boostedScore tl a) :
    (a, boostedScore tl a) ∈ scoredAgents catalog tl := by
  unfold scoredAgents
  exact List.mem_filterMap.2 ⟨a, ha, by simp [hpos]⟩

theorem one_lt_length_of_two_mem {α : Type} {a b : α} {l : List α}
    (ha : a ∈ l) (hb : b ∈ l) (hab : a ≠ b) : 1 < l.length := by
  cases l with
  | nil => simp at ha
  | cons x xs =>
    cases xs with
    | nil =>
      simp at ha hb
      exact absurd (ha.trans hb.symm) hab
    | cons y ys =>
      simp only [List.length_cons]
      omega

theorem mem_addPatternAgents_of_mem_base {patterns : List (List Char)}
    (sorted : List (Agent × ℚ)) {base : List Agent} {x : Agent} (hx : x ∈ base) :
    x ∈ addPatternAgents patterns sorted base := by
  unfold addPatternAgents
  induction sorted generalizing base with
  | nil => exact hx
  | cons q qs ih =>
    simp only [List.foldl_cons]
    apply ih
    by_cases hc : q.1.name ∈ patterns ∧ 2 ≤ q.2 ∧ q.1 ∉ base
    · rw [if_pos hc]; exact List.mem_append_left _ hx
    · rw [if_neg hc]; exact hx

theorem mem_addPatternAgents_of_mem {patterns : List (List Char)}
    {sorted : List (Agent × ℚ)} {base : List Agent} {p : Agent × ℚ} (hp : p ∈ sorted)
    (hname : p.1.name ∈ patterns) (hscore : 2 ≤ p.2) :
    p.1 ∈ addPatternAgents patterns sorted base := by
  induction sorted generalizing base with
  | nil => simp at hp
  | cons q qs ih =>
    unfold addPatternAgents
    simp only [List.foldl_cons]
    rcases List.mem_cons.1 hp with h1 | h1
    · subst h1
      by_cases hb : p.1 ∈ base
      · apply mem_addPatternAgents_of_mem_base
        by_cases hc : p.1.name ∈ patterns ∧ 2 ≤ p.2 ∧ p.1 ∉ base
        · rw [if_pos hc]; exact List.mem_append_left _ hb
        · rw [if_neg hc]; exact hb
      · rw [if_pos ⟨hname, hscore, hb⟩]
        apply mem_addPatternAgents_of_mem_base
        exact List.mem_append_right _ (List.mem_singleton.2 rfl)
    · exact ih h1

theorem self_mem_appendIfAbsent (l : List (List Char)) (x : List Char) :
    x ∈ appendIfAbsent l x := by
  unfold appendIfAbsent
  by_cases h : x ∈ l
  · rw [if_pos h]; exact h
  · rw [if_neg h]; exact List.mem_append_right _ (List.mem_singleton.2 rfl)

theorem mem_appendIfAbsent_of_mem {l : List (List Char)} {y : List Char} (x : List Char)
    (h : y ∈ l) : y ∈ appendIfAbsent l x := by
  unfold appendIfAbsent
  by_cases hx : x ∈ l
  · rw [if_pos hx]; exact h
  · rw [if_neg hx]; exact List.mem_append_left _ h

theorem mem_pat4_of_mem_pat3 {t : List Char} {y : List Char} (h : y ∈ pat3 t) :
    y ∈ pat4 t := by
  unfold pat4
  by_cases h1 : buildTestTrigger t = true
  · rw [if_pos h1]
    have hb : y ∈ pat3 t ++ [rcName] := List.mem_append_left _ h
    by_cases h2 : (isSubstr (str "api") t || isSubstr (str "backend") t
        || isSubstr (str "endpoint") t) = true
    · rw [if_pos h2]; exact mem_appendIfAbsent_of_mem _ hb
    · rw [if_neg h2]
      by_cases h3 : (isSubstr (str "frontend") t || isSubstr (str "ui") t
          || isSubstr (str "component") t) = true
      · rw [if_pos h3]; exact mem_appendIfAbsent_of_mem _ hb
      · rw [if_neg h3]; exact hb
  · rw [if_neg h1]; exact h

theorem mem_pat6_of_mem_pat5 {t : List Char} {y : List Char} (h : y ∈ pat5 t) :
    y ∈ pat6 t := by
  unfold pat6
  by_cases h1 : (wholeWordMatch (str "design") t &&
      !litSpaceAlts (str "design")
        [str "architecture", str "database", str "api", str "event-driven",
         str "microservices"] t) = true
  · rw [if_pos h1]; exact mem_appendIfAbsent_of_mem _ h
  · rw [if_neg h1]; exact h

theorem mem_patternAgentsRaw_of_mem_pat3 {t : List Char} {y : List Char}
    (h : y ∈ pat3 t) : y ∈ patternAgentsRaw t := by
  have h5 : y ∈ pat5 t := List.mem_append_left _ (mem_pat4_of_mem_pat3 h)
  have h6 : y ∈ pat6 t := mem_pat6_of_mem_pat5 h5
  unfold patternAgentsRaw
  by_cases h7 : isSubstr (str "dashboard") t = true
  · rw [if_pos h7]
    exact mem_appendIfAbsent_of_mem _ (mem_appendIfAbsent_of_mem _ h6)
  · rw [if_neg h7]; exact h6

theorem fd_ba_mem_patterns {t : List Char} (hf : isSubstr (str "frontend") t = true)
    (hb : isSubstr (str "backend") t = true) :
    fdName ∈ patternAgents t ∧ baName ∈ patternAgents t := by
  have h3 : fdName ∈ pat3 t ∧ baName ∈ pat3 t := by
    unfold pat3
    have hc : (isSubstr (str "frontend") t &&
        (isSubstr (str "backend") t || isSubstr (str "api") t)) = true := by
      rw [hf, hb]; rfl
    rw [hc]
    constructor
    · exact List.mem_append_right _ (by simp)
    · exact List.mem_append_right _ (by simp)
  unfold patternAgents
  exact ⟨List.mem_dedup.2 (mem_patternAgentsRaw_of_mem_pat3 h3.1),
         List.mem_dedup.2 (mem_patternAgentsRaw_of_mem_pat3 h3.2)⟩

theorem keywordPoints_nonneg (tl kw : List Char) : 0 ≤ keywordPoints tl kw := by
  unfold keywordPoints
  simp only []
  split_ifs with h1 h2
  · have : (0 : ℚ) ≤ (wordCount (lowerStr kw) : ℚ) := Nat.cast_nonneg _
    nlinarith
  · norm_num
  · norm_num

theorem analyzeTask_nil {catalog : List Agent} {task : List Char}
    (h : sortScored (scoredAgents catalog (lowerStr task)) = []) :
    analyzeTask catalog task =
      { isMultiAgent := false, requiredAgents := [getDefaultAgent catalog],
        confidenceScore := 0 } := by
  unfold analyzeTask
  simp only [h]

theorem analyzeTask_low {catalog : List Agent} {task : List Char} {top : Agent × ℚ}
    {rest : List (Agent × ℚ)}
    (h : sortScored (scoredAgents catalog (lowerStr task)) = top :: rest)
    (hlt : top.2 < 2) :
    analyzeTask catalog task =
      { isMultiAgent := false, requiredAgents := [getDefaultAgent catalog],
        confidenceScore := min (1 / 10 + top.2 * (1 / 20)) (3 / 10) } := by
  unfold analyzeTask
  simp only [h]
  rw [if_pos hlt]

theorem analyzeTask_single {catalog : List Agent} {task : List Char} {top : Agent × ℚ}
    (h : sortScored (scoredAgents catalog (lowerStr task)) = [top])
    (hge : ¬ top.2 < 2) :
    analyzeTask catalog task =
      { isMultiAgent := false, requiredAgents := [top.1],
        confidenceScore := min (3 / 10 + top.2 * (1 / 10)) 1 } := by
  unfold analyzeTask
  simp only [h]
  rw [if_neg hge]
  simp

theorem similarCandidates_eq {catalog : List Agent} {task : List Char} {top : Agent × ℚ}
    {rest : List (Agent × ℚ)}
    (h : sortScored (scoredAgents catalog (lowerStr task)) = top :: rest) :
    similarCandidates catalog task =
      addPatternAgents (patternAgents (lowerStr task)) (top :: rest)
        (similarBase (top :: rest) top.2) := by
  unfold similarCandidates
  simp only [h]

theorem analyzeTask_multi_true {catalog : List Agent} {task : List Char} {top : Agent × ℚ}
    {rest : List (Agent × ℚ)}
    (h : sortScored (scoredAgents catalog (lowerStr task)) = top :: rest)
    (hge : ¬ top.2 < 2) (hrest : rest ≠ [])
    (hsim : 1 < (similarCandidates catalog task).length)
    (hcond : 1 < (((similarCandidates catalog task).map (fun a => a.category)).dedup).length
      ∨ (1 < (((similarCandidates catalog task).map (fun a => a.name)).dedup).length
          ∧ (5 / 2 : ℚ) ≤ top.2)
      ∨ 1 < (patternAgents (lowerStr task)).length) :
    analyzeTask catalog task =
      { isMultiAgent := true, requiredAgents := (similarCandidates catalog task).take 5,
        confidenceScore := min (3 / 10 + top.2 * (1 / 10)) 1 } := by
  rw [similarCandidates_eq h] at hsim hcond ⊢
  unfold analyzeTask
  simp only [h]
  rw [if_neg hge, if_neg hrest, if_pos hsim, if_pos hcond]

theorem analyzeTask_conf_cons {catalog : List Agent} {task : List Char} {top : Agent × ℚ}
    {rest : List (Agent × ℚ)}
    (h : sortScored (scoredAgents catalog (lowerStr task)) = top :: rest)
    (hge : ¬ top.2 < 2) :
    (analyzeTask catalog task).confidenceScore = min (3 / 10 + top.2 * (1 / 10)) 1 := by
  unfold analyzeTask
  simp only [h]
  rw [if_neg hge]
  split_ifs <;> rfl

theorem analyzeTask_required_ne_nil (catalog : List Agent) (task : List Char) :
    (analyzeTask catalog task).requiredAgents ≠ [] := by
  cases h : sortScored (scoredAgents catalog (lowerStr task)) with
  | nil => rw [analyzeTask_nil h]; simp
  | cons top rest =>
    by_cases h1 : top.2 < 2
    · rw [analyzeTask_low h h1]; simp
    · by_cases h2 : rest = []
      · subst h2
        rw [analyzeTask_single h h1]
        simp
      · unfold analyzeTask
        simp only [h]
        rw [if_neg h1, if_neg h2]
        split_ifs with h3 h4
        · simp only []
          apply List.ne_nil_of_length_pos
          rw [List.length_take]
          exact lt_min (by norm_num) (by omega)
        · simp
        · simp

/-! ### Claims -/

/-- Definition following the words of claim C1 and of spec section 4.1 step 2:
    the sum over the keywords of the per-keyword contribution, plus a flat
    5.0 for a verbatim name occurrence, plus a flat 3.0 for agents named by
    the pattern detectors. -/
def specClaimScore (task : List Char) (a : Agent) : ℚ :=
  ((a.keywords.map (fun kw =>
      if wholeWordMatch (lowerStr kw) (lowerStr task) then
        2 + (1 / 2) * ((wordCount (lowerStr kw) : ℚ) - 1)
      else if isSubstr (lowerStr kw) (lowerStr task) then 1
      else 0)).sum)
  + (if isSubstr (lowerStr a.name) (lowerStr task) then 5 else 0)
  + (if a.name ∈ patternAgents (lowerStr task) then 3 else 0)

/-- C1: the score analyze_task assigns to an agent (keyword accumulation,
    name bonus, pattern-detector boost) equals the closed formula stated by
    the claim. -/
theorem c1_score_formula (task : List Char) (a : Agent) :
    boostedScore (lowerStr task) a = specClaimScore task a := by
  unfold boostedScore calculateAgentScore specClaimScore
  rw [foldl_add_eq_sum, zero_add]
  have hmap : a.keywords.map (keywordPoints (lowerStr task)) =
      a.keywords.map (fun kw =>
        if wholeWordMatch (lowerStr kw) (lowerStr task) then
          2 + (1 / 2) * ((wordCount (lowerStr kw) : ℚ) - 1)
        else if isSubstr (lowerStr kw) (lowerStr task) then 1
        else 0) := by
    apply List.map_congr_left
    intro kw _
    unfold keywordPoints
    simp only []
    split_ifs <;> ring
  rw [hmap]

/-- C2: with no positive-scoring candidate, or a top score under 2.0,
    analyze_task falls back to the default agent, not multi-agent, with
    confidence 0.0 (no candidates) or min(0.1 + topScore*0.05, 0.3). -/
theorem c2_low_confidence_fallback (catalog : List Agent) (task : List Char) :
    (scoredAgents catalog (lowerStr task) = [] →
      analyzeTask catalog task =
        { isMultiAgent := false, requiredAgents := [getDefaultAgent catalog],
          confidenceScore := 0 }) ∧
    (∀ top rest, sortScored (scoredAgents catalog (lowerStr task)) = top :: rest →
      top.2 < 2 →
      analyzeTask catalog task =
        { isMultiAgent := false, requiredAgents := [getDefaultAgent catalog],
          confidenceScore := min (1 / 10 + top.2 * (1 / 20)) (3 / 10) }) := by
  constructor
  · intro h
    apply analyzeTask_nil
    rw [h]
    rfl
  · intro top rest h hlt
    exact analyzeTask_low h hlt

/-- An agent and catalog exercising the low-score fallback of C2: the only
    keyword occurs merely as a substring, scoring 1.0 < 2.0. -/
def wAgent : Agent :=
  { name := str "Foo Bar", category := str "engineering",
    keywords := [str "foo"], isDefault := true }

theorem c2_witness :
    sortScored (scoredAgents [wAgent] (lowerStr (str "xfoox"))) = [(wAgent, 1)] ∧
    (1 : ℚ) < 2 ∧
    analyzeTask [wAgent] (str "xfoox") =
      { isMultiAgent := false, requiredAgents := [getDefaultAgent [wAgent]],
        confidenceScore := min (1 / 10 + 1 * (1 / 20)) (3 / 10) } := by
  refine ⟨by with_unfolding_all decide, by norm_num, ?_⟩
  exact (c2_low_confidence_fallback [wAgent] (str "xfoox")).2 (wAgent, 1) []
    (by with_unfolding_all decide) (by norm_num)

/-- C4: for every catalog and every task string, the confidence score of
    analyze_task lies in the closed interval from 0 to 1. -/
theorem c4_confidence_in_unit_interval (catalog : List Agent) (task : List Char) :
    0 ≤ (analyzeTask catalog task).confidenceScore ∧
    (analyzeTask catalog task).confidenceScore ≤ 1 := by
  cases h : sortScored (scoredAgents catalog (lowerStr task)) with
  | nil =>
    rw [analyzeTask_nil h]
    norm_num
  | cons top rest =>
    have htop : 0 < top.2 := by
      have hmem : top ∈ scoredAgents catalog (lowerStr task) := by
        apply mem_sortScored.1
        rw [h]
        exact List.mem_cons_self _ _
      exact mem_scoredAgents_pos hmem
    by_cases h1 : top.2 < 2
    · rw [analyzeTask_low h h1]
      constructor
      · simp only []
        apply le_min
        · nlinarith
        · norm_num
      · simp only []
        calc min (1 / 10 + top.2 * (1 / 20)) (3 / 10) ≤ 3 / 10 := min_le_right _ _
          _ ≤ 1 := by norm_num
    · rw [analyzeTask_conf_cons h h1]
      constructor
      · apply le_min
        · nlinarith
        · norm_num
      · exact min_le_right _ _

/-- C7: malformed task input degrades to the default specialist instead of
    failing. Non-string input is normalised to the empty string by the
    source, whose strip is then empty, so the first conjunct covers empty,
    whitespace-only and non-string input; the second conjunct is the
    degradation guarantee behind select_agent: analyze_task always returns
    at least one required agent (the default when nothing matched), and the
    embedding of both functions is total, mirroring that the source raises
    no exception on arbitrary task text. -/
theorem c7_default_on_degenerate_input (catalog : List Agent) (task : List Char) :
    (pyStrip task = [] → selectAgent catalog task = getDefaultAgent catalog) ∧
    (analyzeTask catalog task).requiredAgents ≠ [] := by
  constructor
  · intro h
    unfold selectAgent
    rw [h]
    simp
  · exact analyzeTask_required_ne_nil catalog task

theorem c7_witness :
    pyStrip (str "   ") = [] ∧
    selectAgent [wAgent] (str "   ") = getDefaultAgent [wAgent] ∧
    (analyzeTask [wAgent] (str "!!!")).requiredAgents ≠ [] :=
  ⟨by with_unfolding_all decide,
   (c7_default_on_degenerate_input [wAgent] (str "   ")).1 (by with_unfolding_all decide),
   (c7_default_on_degenerate_input [wAgent] (str "!!!")).2⟩

theorem keywordPoints_ge_one {tl kw : List Char} (hsub : isSubstr (lowerStr kw) tl = true) :
    1 ≤ keywordPoints tl kw := by
  unfold keywordPoints
  simp only []
  by_cases h1 : wholeWordMatch (lowerStr kw) tl = true
  · rw [if_pos h1]
    have : (0 : ℚ) ≤ (wordCount (lowerStr kw) : ℚ) := Nat.cast_nonneg _
    nlinarith
  · rw [if_neg h1, if_pos hsub]

theorem calculateAgentScore_ge_one {tl : List Char} {a : Agent} {kw : List Char}
    (hkw : kw ∈ a.keywords) (hsub : isSubstr (lowerStr kw) tl = true) :
    1 ≤ calculateAgentScore tl a := by
  unfold calculateAgentScore
  rw [foldl_add_eq_sum, zero_add]
  have hmem : keywordPoints tl kw ∈ a.keywords.map (keywordPoints tl) :=
    List.mem_map_of_mem _ hkw
  have hsum : keywordPoints tl kw ≤ (a.keywords.map (keywordPoints tl)).sum := by
    apply List.single_le_sum _ _ hmem
    intro x hx
    rcases List.mem_map.1 hx with ⟨kw2, _, hkw2⟩
    exact hkw2 ▸ keywordPoints_nonneg tl kw2
  have h1 := keywordPoints_ge_one hsub
  have hname : (0 : ℚ) ≤ if isSubstr (lowerStr a.name) tl = true then 5 else 0 := by
    split_ifs <;> norm_num
  linarith

theorem boostedScore_ge_four {tl : List Char} {a : Agent} {kw : List Char}
    (hkw : kw ∈ a.keywords) (hsub : isSubstr (lowerStr kw) tl = true)
    (hpat : a.name ∈ patternAgents tl) : 4 ≤ boostedScore tl a := by
  unfold boostedScore
  rw [if_pos hpat]
  have := calculateAgentScore_ge_one hkw hsub
  linarith

/-- C3, corrected claim: whenever the lower-cased task contains both
    substrings frontend and backend, and the catalog contains the records
    Frontend Developer and Backend Architect carrying the matching
    keywords, analyze_task classifies the task as multi-agent and both
    records belong to the similar-candidates list; required_agents is the
    first five entries of that list, so both records are required whenever
    the list does not exceed five entries (the counterexample shows they
    are dropped when it does). -/
theorem c3_amended_frontend_backend (catalog : List Agent) (task : List Char) (fd ba : Agent)
    (hfd : fd ∈ catalog) (hba : ba ∈ catalog)
    (hfdn : fd.name = fdName) (hban : ba.name = baName)
    (hfk : str "frontend" ∈ fd.keywords.map lowerStr)
    (hbk : str "backend" ∈ ba.keywords.map lowerStr)
    (hf : isSubstr (str "frontend") (lowerStr task) = true)
    (hb : isSubstr (str "backend") (lowerStr task) = true) :
    (analyzeTask catalog task).isMultiAgent = true ∧
    fd ∈ similarCandidates catalog task ∧
    ba ∈ similarCandidates catalog task ∧
    (analyzeTask catalog task).requiredAgents = (similarCandidates catalog task).take 5 ∧
    ((similarCandidates catalog task).length ≤ 5 →
      fd ∈ (analyzeTask catalog task).requiredAgents ∧
      ba ∈ (analyzeTask catalog task).requiredAgents) := by
  have hpat := fd_ba_mem_patterns hf hb
  have hfdpat : fd.name ∈ patternAgents (lowerStr task) := by rw [hfdn]; exact hpat.1
  have hbapat : ba.name ∈ patternAgents (lowerStr task) := by rw [hban]; exact hpat.2
  rcases List.mem_map.1 hfk with ⟨kwf, hkwf, hkwfl⟩
  rcases List.mem_map.1 hbk with ⟨kwb, hkwb, hkwbl⟩
  have hfscore : 4 ≤ boostedScore (lowerStr task) fd :=
    boostedScore_ge_four hkwf (by rw [hkwfl]; exact hf) hfdpat
  have hbscore : 4 ≤ boostedScore (lowerStr task) ba :=
    boostedScore_ge_four hkwb (by rw [hkwbl]; exact hb) hbapat
  have hfmem : (fd, boostedScore (lowerStr task) fd) ∈ scoredAgents catalog (lowerStr task) :=
    mem_scoredAgents_of_pos hfd (by linarith)
  have hbmem : (ba, boostedScore (lowerStr task) ba) ∈ scoredAgents catalog (lowerStr task) :=
    mem_scoredAgents_of_pos hba (by linarith)
  have hne : fd ≠ ba := by
    intro h
    have : fdName = baName := by rw [← hfdn, ← hban, h]
    exact absurd this (by decide)
  have hlen : 1 < (scoredAgents catalog (lowerStr task)).length :=
    one_lt_length_of_two_mem hfmem hbmem (fun h => hne (congrArg Prod.fst h))
  cases hs : sortScored (scoredAgents catalog (lowerStr task)) with
  | nil =>
    have := length_sortScored (scoredAgents catalog (lowerStr task))
    rw [hs] at this
    simp at this
    omega
  | cons top rest =>
    have hrest : rest ≠ [] := by
      intro h0
      have := length_sortScored (scoredAgents catalog (lowerStr task))
      rw [hs, h0] at this
      simp at this
      omega
    have htople : boostedScore (lowerStr task) fd ≤ top.2 :=
      sortScored_head_ge hs _ hfmem
    have hge : ¬ top.2 < 2 := not_lt.2 (by linarith)
    have hsimfd : fd ∈ similarCandidates catalog task := by
      rw [similarCandidates_eq hs]
      exact mem_addPatternAgents_of_mem
        (p := (fd, boostedScore (lowerStr task) fd))
        (by rw [← hs]; exact mem_sortScored.2 hfmem) hfdpat (by linarith)
    have hsimba : ba ∈ similarCandidates catalog task := by
      rw [similarCandidates_eq hs]
      exact mem_addPatternAgents_of_mem
        (p := (ba, boostedScore (lowerStr task) ba))
        (by rw [← hs]; exact mem_sortScored.2 hbmem) hbapat (by linarith)
    have hsimlen : 1 < (similarCandidates catalog task).length :=
      one_lt_length_of_two_mem hsimfd hsimba hne
    have hpatlen : 1 < (patternAgents (lowerStr task)).length :=
      one_lt_length_of_two_mem hpat.1 hpat.2 (by decide)
    have hmulti := analyzeTask_multi_true hs hge hrest hsimlen (Or.inr (Or.inr hpatlen))
    rw [hmulti]
    refine ⟨rfl, hsimfd, hsimba, rfl, ?_⟩
    intro h5
    rw [List.take_of_length_le h5]
    exact ⟨hsimfd, hsimba⟩

/-- Catalog record for the C3 counterexample: a high-scoring filler agent
    whose name occurs verbatim in the task and whose two keywords both
    match as whole words, for a score of 9.0. -/
def fillerAgent (n k1 k2 : String) : Agent :=
  { name := str n, category := str "engineering",
    keywords := [str k1, str k2], isDefault := false }

/-- Frontend Developer record with the matching keyword. -/
def fdAgent : Agent :=
  { name := fdName, category := str "engineering",
    keywords := [str "frontend"], isDefault := false }

/-- Backend Architect record with the matching keyword. -/
def baAgent : Agent :=
  { name := baName, category := str "engineering",
    keywords := [str "backend"], isDefault := false }

/-- Catalog of the C3 counterexample: five filler agents scoring 9.0 each
    fill the sixty-percent window, pushing the pattern-appended Frontend
    Developer (5.0) and Backend Architect (5.0) past the take-five cut. -/
def c3Catalog : List Agent :=
  [fillerAgent "x1" "x1" "q1", fillerAgent "x2" "x2" "q2", fillerAgent "x3" "x3" "q3",
   fillerAgent "x4" "x4" "q4", fillerAgent "x5" "x5" "q5", fdAgent, baAgent]

/-- Task of the C3 counterexample: contains frontend and backend plus the
    names and keywords of all five filler agents. -/
def c3Task : List Char := str "frontend backend x1 q1 x2 q2 x3 q3 x4 q4 x5 q5"

/-- C3 counterexample: the task contains both frontend and backend, the
    catalog contains the two matching specialists, analyze_task is
    multi-agent — yet neither specialist is in required_agents, because the
    similar-candidates list has seven entries and required_agents keeps
    only the first five. -/
theorem c3_counterexample :
    isSubstr (str "frontend") (lowerStr c3Task) = true ∧
    isSubstr (str "backend") (lowerStr c3Task) = true ∧
    fdAgent ∈ c3Catalog ∧ baAgent ∈ c3Catalog ∧
    str "frontend" ∈ fdAgent.keywords.map lowerStr ∧
    str "backend" ∈ baAgent.keywords.map lowerStr ∧
    (analyzeTask c3Catalog c3Task).isMultiAgent = true ∧
    fdAgent ∉ (analyzeTask c3Catalog c3Task).requiredAgents ∧
    baAgent ∉ (analyzeTask c3Catalog c3Task).requiredAgents := by
  with_unfolding_all decide

theorem c3_amended_witness :
    (analyzeTask [fdAgent, baAgent] (str "frontend and backend work")).isMultiAgent = true ∧
    fdAgent ∈ similarCandidates [fdAgent, baAgent] (str "frontend and backend work") ∧
    baAgent ∈ similarCandidates [fdAgent, baAgent] (str "frontend and backend work") ∧
    (analyzeTask [fdAgent, baAgent] (str "frontend and backend work")).requiredAgents =
      (similarCandidates [fdAgent, baAgent] (str "frontend and backend work")).take 5 ∧
    ((similarCandidates [fdAgent, baAgent] (str "frontend and backend work")).length ≤ 5 →
      fdAgent ∈ (analyzeTask [fdAgent, baAgent] (str "frontend and backend work")).requiredAgents ∧
      baAgent ∈ (analyzeTask [fdAgent, baAgent] (str "frontend and backend work")).requiredAgents) :=
  c3_amended_frontend_backend [fdAgent, baAgent] (str "frontend and backend work")
    fdAgent baAgent (by decide) (by decide) rfl rfl (by decide) (by decide)
    (by with_unfolding_all decide) (by with_unfolding_all decide)

/-! ### Planner lemmas -/

theorem numberRows_length (n : Nat) (rows : List StepData) :
    (numberRows n rows).length = rows.length := by
  induction rows generalizing n with
  | nil => rfl
  | cons d ds ih => simp [numberRows, ih]

theorem numberRows_map_stepNumber (n : Nat) (rows : List StepData) :
    (numberRows n rows).map (fun s => s.stepNumber) = List.range' n rows.length := by
  induction rows generalizing n with
  | nil => rfl
  | cons d ds ih =>
    simp only [numberRows, List.map_cons, List.length_cons, List.range'_succ]
    rw [ih]

theorem numberRows_agent_mem {n : Nat} {rows : List StepData} {s : Step}
    (h : s ∈ numberRows n rows) : s.agent ∈ rows.map (fun d => d.agent) := by
  induction rows generalizing n with
  | nil => simp [numberRows] at h
  | cons d ds ih =>
    simp only [numberRows, List.mem_cons] at h
    rcases h with h | h
    · rw [h]
      exact List.mem_cons_self _ _
    · exact List.mem_cons_of_mem _ (ih h)

theorem mapDependencies_cons (s : Step) (l : List Step) :
    mapDependencies (s :: l) =
      (if 1 < s.stepNumber then [(s.stepNumber, [s.stepNumber - 1])] else []) ++
        mapDependencies l := by
  unfold mapDependencies
  rw [List.filterMap_cons]
  split_ifs with h
  · simp [h]
  · simp [h]

theorem mapDependencies_numberRows (rows : List StepData) (n : Nat) (h : 2 ≤ n) :
    mapDependencies (numberRows n rows) =
      (List.range' n rows.length).map (fun k => (k, [k - 1])) := by
  induction rows generalizing n with
  | nil => rfl
  | cons d ds ih =>
    simp only [numberRows, List.length_cons, List.range'_succ, List.map_cons]
    rw [mapDependencies_cons]
    simp only []
    rw [if_pos (by omega : 1 < n), ih (n + 1) (by omega)]
    rfl

theorem lookup_depRange (s m n : Nat) :
    ((List.range' s m).map (fun k => (k, [k - 1]))).lookup n =
      if s ≤ n ∧ n < s + m then some [n - 1] else none := by
  induction m generalizing s with
  | zero =>
    rw [if_neg (by omega)]
    rfl
  | succ m ih =>
    rw [List.range'_succ]
    simp only [List.map_cons, List.lookup]
    by_cases h : n = s
    · subst h
      simp only [beq_self_eq_true]
      rw [if_pos (by omega)]
    · have hbeq : (n == s) = false := beq_eq_false_iff_ne.2 h
      rw [hbeq]
      simp only []
      rw [ih (s + 1)]
      split_ifs with h1 h2 h3 <;> first | rfl | omega

theorem sequenceRows_agent_sub (agents : List Agent) (primary : Agent) (task : List Char)
    (hp : primary ∈ agents) :
    ∀ d ∈ sequenceRows agents primary task, d.agent ∈ agents.map (fun a => a.name) := by
  intro d hd
  unfold sequenceRows at hd
  rcases List.mem_cons.1 hd with h | h
  · rw [h]
    exact List.mem_map_of_mem _ hp
  rcases List.mem_append.1 h with h | h
  rotate_left
  · -- deployment step
    unfold deployRows at h
    by_cases hc : ([str "deploy", str "deployment", str "production", str "release"].any
        (fun w => isSubstr w (lowerStr task))) = true
    · rw [if_pos hc] at h
      simp only [List.mem_singleton] at h
      rw [h]
      cases hfind : agents.find? (fun a => isSubstr (str "DevOps") a.name) with
      | none => simp only [hfind, Option.getD_none]; exact List.mem_map_of_mem _ hp
      | some t =>
        simp only [hfind, Option.getD_some]
        exact List.mem_map_of_mem _ (List.mem_of_find?_eq_some hfind)
    · rw [if_neg hc] at h
      simp at h
  rcases List.mem_append.1 h with h | h
  rotate_left
  · -- testing step
    unfold testRows at h
    by_cases hc : (buildVerbs.any (fun w => isSubstr w (lowerStr task))) = true
    · rw [if_pos hc] at h
      simp only [List.mem_singleton] at h
      rw [h]
      cases hfind : agents.find? isTestRole with
      | none => simp only [hfind, Option.getD_none]; exact List.mem_map_of_mem _ hp
      | some t =>
        simp only [hfind, Option.getD_some]
        exact List.mem_map_of_mem _ (List.mem_of_find?_eq_some hfind)
    · rw [if_neg hc] at h
      simp at h
  rcases List.mem_append.1 h with h | h
  · -- design step
    unfold designRows at h
    cases hfind : agents.find? isDesignRole with
    | none => rw [hfind] at h; simp at h
    | some dgn =>
      rw [hfind] at h
      simp only [List.mem_singleton] at h
      rw [h]
      exact List.mem_map_of_mem _ (List.mem_of_find?_eq_some hfind)
  · -- implementation step
    unfold implRows at h
    rcases List.mem_map.1 h with ⟨a, ha, had⟩
    rw [← had]
    exact List.mem_map_of_mem _ (List.mem_of_mem_filter ha)

theorem generateSequence_step_agents {agents : List Agent} {task : List Char}
    {seq : List Step} (h : generateSequence agents task = some seq) :
    ∀ s ∈ seq, s.agent ∈ agents.map (fun a => a.name) := by
  intro s hs
  cases agents with
  | nil => simp [generateSequence] at h
  | cons primary rest =>
    unfold generateSequence at h
    have hseq : seq = numberRows 1 (sequenceRows (primary :: rest) primary task) :=
      (Option.some.inj h).symm
    rw [hseq] at hs
    rcases List.mem_map.1 (numberRows_agent_mem hs) with ⟨d, hd, hda⟩
    rw [← hda]
    exact sequenceRows_agent_sub (primary :: rest) primary task
      (List.mem_cons_self _ _) d hd

theorem generateSequence_shape {agents : List Agent} {task : List Char} {seq : List Step}
    (h : generateSequence agents task = some seq) :
    ∃ primary tailRows, seq = numberRows 1 (reqRow primary :: tailRows) := by
  cases agents with
  | nil => simp [generateSequence] at h
  | cons primary rest =>
    refine ⟨primary,
      designRows (primary :: rest) ++ implRows (primary :: rest)
        ++ testRows (primary :: rest) primary (lowerStr task)
        ++ deployRows (primary :: rest) primary (lowerStr task), ?_⟩
    exact (Option.some.inj h).symm

theorem generatePlanWith_parts {agents : List Agent} {task : List Char} {p : Plan}
    (h : generatePlanWith agents task = some p) :
    ∃ seq, generateSequence agents task = some seq ∧
      p.agents = agents.map (fun a =>
        { name := a.name, category := a.category,
          responsibilities := responsibilities a }) ∧
      p.sequence = seq ∧
      p.handoffPoints = generateHandoffs seq ∧
      p.dependencies = mapDependencies seq ∧
      p.parallelGroups = identifyParallelWork agents := by
  unfold generatePlanWith at h
  cases hseq : generateSequence agents task with
  | none => rw [hseq] at h; cases h
  | some seq =>
    rw [hseq] at h
    have := (Option.some.inj h).symm
    exact ⟨seq, rfl, by rw [this], by rw [this], by rw [this], by rw [this], by rw [this]⟩

theorem generatePlan_parts {catalog : List Agent} {task : List Char} {p : Plan}
    (h : generatePlan catalog task = some p) :
    ∃ agents seq, agents ≠ [] ∧ generateSequence agents task = some seq ∧
      p.agents = agents.map (fun a =>
        { name := a.name, category := a.category,
          responsibilities := responsibilities a }) ∧
      p.sequence = seq ∧
      p.handoffPoints = generateHandoffs seq ∧
      p.dependencies = mapDependencies seq ∧
      p.parallelGroups = identifyParallelWork agents := by
  unfold generatePlan at h
  simp only [] at h
  rcases generatePlanWith_parts h with ⟨seq, hseq, hparts⟩
  refine ⟨_, seq, ?_, hseq, hparts⟩
  intro hnil
  rw [hnil] at hseq
  simp [generateSequence] at hseq

theorem generateHandoffs_eq (seq : List Step) :
    generateHandoffs seq =
      ((adjacentPairs seq).filter (fun q => decide (q.1.agent ≠ q.2.agent))).map
        (fun q => { fromAgent := q.1.agent, toAgent := q.2.agent,
                    deliverable := q.1.deliverable,
                    successCriteria := successCriteria q.1 }) := by
  unfold generateHandoffs
  induction adjacentPairs seq with
  | nil => rfl
  | cons q qs ih =>
    rw [List.filterMap_cons, List.filter_cons]
    by_cases h : q.1.agent ≠ q.2.agent
    · rw [if_pos h, if_pos (decide_eq_true h), List.map_cons, ih]
    · rw [if_neg h, if_neg (fun hd => h (of_decide_eq_true hd))]
      exact ih

theorem generateHandoffs_mem {seq : List Step} {hf : Handoff}
    (h : hf ∈ generateHandoffs seq) :
    ∃ s1 ∈ seq, ∃ s2 ∈ seq, s1.agent = hf.fromAgent ∧ s2.agent = hf.toAgent := by
  unfold generateHandoffs at h
  rcases List.mem_filterMap.1 h with ⟨q, hq, hqf⟩
  have hq1 : q.1 ∈ seq := (List.of_mem_zip hq).1
  have hq2 : q.2 ∈ seq := List.mem_of_mem_tail (List.of_mem_zip hq).2
  by_cases hne : q.1.agent ≠ q.2.agent
  · rw [if_pos hne] at hqf
    have := Option.some.inj hqf
    exact ⟨q.1, hq1, q.2, hq2, by rw [← this], by rw [← this]⟩
  · rw [if_neg hne] at hqf
    cases hqf

theorem generateHandoffs_nil_of_const {seq : List Step} {nm : List Char}
    (h : ∀ s ∈ seq, s.agent = nm) : generateHandoffs seq = [] := by
  unfold generateHandoffs
  rw [List.filterMap_eq_nil_iff]
  intro q hq
  have h1 : q.1.agent = nm := h q.1 (List.of_mem_zip hq).1
  have h2 : q.2.agent = nm := h q.2 (List.mem_of_mem_tail (List.of_mem_zip hq).2)
  rw [if_neg]
  intro hne
  exact hne (h1.trans h2.symm)

/-- Placeholder plan used only to spell out concrete witness statements. -/
def emptyPlan : Plan :=
  { task := [], agents := [], sequence := [], handoffPoints := [],
    dependencies := [], estimatedHours := 0, parallelGroups := [] }

/-- C5: step numbers are exactly 1..N with no gaps; the dependency map is
    exactly n maps-to [n-1] for 2 ≤ n ≤ N; step 1 has no entry and neither
    does any number beyond N. -/
theorem c5_contiguous_steps_linear_deps (catalog : List Agent) (task : List Char) (p : Plan)
    (h : generatePlan catalog task = some p) :
    p.sequence.map (fun s => s.stepNumber) = List.range' 1 p.sequence.length ∧
    p.dependencies = (List.range' 2 (p.sequence.length - 1)).map (fun k => (k, [k - 1])) ∧
    p.dependencies.lookup 1 = none ∧
    (∀ n, 2 ≤ n → n ≤ p.sequence.length → p.dependencies.lookup n = some [n - 1]) ∧
    (∀ n, p.sequence.length < n → p.dependencies.lookup n = none) := by
  rcases generatePlan_parts h with ⟨agents, seq, hne, hseq, hag, hs, hh, hd, hp⟩
  rcases generateSequence_shape hseq with ⟨primary, tail, hshape⟩
  subst hshape
  have hdep : mapDependencies (numberRows 1 (reqRow primary :: tail)) =
      (List.range' 2 tail.length).map (fun k => (k, [k - 1])) := by
    simp only [numberRows]
    rw [mapDependencies_cons]
    simp only []
    rw [if_neg (by omega : ¬ (1 : Nat) < 1),
      mapDependencies_numberRows tail 2 (by omega), List.nil_append]
  have hlen : (numberRows 1 (reqRow primary :: tail)).length = tail.length + 1 := by
    rw [numberRows_length, List.length_cons]
  rw [hs, hd]
  refine ⟨?_, ?_, ?_, ?_, ?_⟩
  · rw [numberRows_map_stepNumber, numberRows_length]
  · rw [hdep, hlen]
    simp
  · rw [hdep, lookup_depRange, if_neg (by omega)]
  · intro n h2 hn
    rw [hlen] at hn
    rw [hdep, lookup_depRange, if_pos (by omega)]
  · intro n hn
    rw [hlen] at hn
    rw [hdep, lookup_depRange, if_neg (by omega)]

theorem c5_witness :
    ((generatePlan [wAgent] (str "hello")).getD emptyPlan).sequence.map
        (fun s => s.stepNumber) =
      List.range' 1 ((generatePlan [wAgent] (str "hello")).getD emptyPlan).sequence.length ∧
    ((generatePlan [wAgent] (str "hello")).getD emptyPlan).dependencies =
      (List.range' 2
        (((generatePlan [wAgent] (str "hello")).getD emptyPlan).sequence.length - 1)).map
        (fun k => (k, [k - 1])) ∧
    ((generatePlan [wAgent] (str "hello")).getD emptyPlan).dependencies.lookup 1 = none ∧
    (∀ n, 2 ≤ n →
      n ≤ ((generatePlan [wAgent] (str "hello")).getD emptyPlan).sequence.length →
      ((generatePlan [wAgent] (str "hello")).getD emptyPlan).dependencies.lookup n =
        some [n - 1]) ∧
    (∀ n, ((generatePlan [wAgent] (str "hello")).getD emptyPlan).sequence.length < n →
      ((generatePlan [wAgent] (str "hello")).getD emptyPlan).dependencies.lookup n = none) :=
  c5_contiguous_steps_linear_deps [wAgent] (str "hello")
    ((generatePlan [wAgent] (str "hello")).getD emptyPlan) (by with_unfolding_all rfl)

/-- C6: the handoff list is exactly one handoff per adjacent pair of steps
    with differing agents, carrying the deliverable of the earlier step, and
    every handoff endpoint names an agent listed among the agent details
    of the plan. -/
theorem c6_handoffs_adjacent_distinct (catalog : List Agent) (task : List Char) (p : Plan)
    (h : generatePlan catalog task = some p) :
    p.handoffPoints =
      ((adjacentPairs p.sequence).filter (fun q => decide (q.1.agent ≠ q.2.agent))).map
        (fun q => { fromAgent := q.1.agent, toAgent := q.2.agent,
                    deliverable := q.1.deliverable,
                    successCriteria := successCriteria q.1 }) ∧
    ∀ hf ∈ p.handoffPoints,
      hf.fromAgent ∈ p.agents.map (fun d => d.name) ∧
      hf.toAgent ∈ p.agents.map (fun d => d.name) := by
  rcases generatePlan_parts h with ⟨agents, seq, hne, hseq, hag, hs, hh, hd, hp⟩
  constructor
  · rw [hh, hs, generateHandoffs_eq]
  · intro hf hmem
    rw [hh] at hmem
    rcases generateHandoffs_mem hmem with ⟨s1, hs1, s2, hs2, h1, h2⟩
    have hnames : p.agents.map (fun d => d.name) = agents.map (fun a => a.name) := by
      rw [hag, List.map_map]
      rfl
    rw [hnames]
    exact ⟨h1 ▸ generateSequence_step_agents hseq s1 hs1,
           h2 ▸ generateSequence_step_agents hseq s2 hs2⟩

theorem c6_witness :
    ((generatePlan [fdAgent, baAgent] (str "build a frontend and backend app")).getD
        emptyPlan).handoffPoints =
      ((adjacentPairs ((generatePlan [fdAgent, baAgent]
          (str "build a frontend and backend app")).getD emptyPlan).sequence).filter
          (fun q => decide (q.1.agent ≠ q.2.agent))).map
        (fun q => { fromAgent := q.1.agent, toAgent := q.2.agent,
                    deliverable := q.1.deliverable,
                    successCriteria := successCriteria q.1 }) ∧
    ∀ hf ∈ ((generatePlan [fdAgent, baAgent]
        (str "build a frontend and backend app")).getD emptyPlan).handoffPoints,
      hf.fromAgent ∈ ((generatePlan [fdAgent, baAgent]
          (str "build a frontend and backend app")).getD emptyPlan).agents.map
          (fun d => d.name) ∧
      hf.toAgent ∈ ((generatePlan [fdAgent, baAgent]
          (str "build a frontend and backend app")).getD emptyPlan).agents.map
          (fun d => d.name) :=
  c6_handoffs_adjacent_distinct [fdAgent, baAgent] (str "build a frontend and backend app")
    ((generatePlan [fdAgent, baAgent] (str "build a frontend and backend app")).getD emptyPlan)
    (by with_unfolding_all rfl)

/-- C8, counterexample to the claimed defensive guard: handed an empty
    specialist list, the planner body fails (the source raises IndexError
    at agents[0], modelled by none) instead of returning a
    single-default-specialist plan. -/
theorem c8_counterexample_no_empty_guard :
    generatePlanWith [] (str "build a service") = none := rfl

/-- C8, corrected claim: the empty-specialist situation cannot arise —
    analyze_task always returns at least one required agent, so
    generate_plan always produces a plan; there is no defensive guard, and
    an empty list passed to the planner body fails instead of producing a
    default plan (see the counterexample). -/
theorem c8_amended_planner_never_empty (catalog : List Agent) (task : List Char) :
    (analyzeTask catalog task).requiredAgents ≠ [] ∧
    ∃ p, generatePlan catalog task = some p := by
  refine ⟨analyzeTask_required_ne_nil catalog task, ?_⟩
  unfold generatePlan
  simp only []
  cases hm : (analyzeTask catalog task).isMultiAgent with
  | false =>
    simp only [hm, Bool.false_eq_true, if_false]
    exact ⟨_, rfl⟩
  | true =>
    simp only [hm, if_true]
    cases hreq : (analyzeTask catalog task).requiredAgents with
    | nil => exact absurd hreq (analyzeTask_required_ne_nil catalog task)
    | cons a rest => exact ⟨_, rfl⟩

/-- Agents for the C9 counterexample: Frontend- and Backend-named
    specialists whose names differ from the hard-coded pair. -/
def feAgent : Agent :=
  { name := str "Frontend Engineer", category := str "engineering",
    keywords := [str "x"], isDefault := false }

def bdAgent : Agent :=
  { name := str "Backend Developer", category := str "engineering",
    keywords := [str "y"], isDefault := false }

/-- C9 counterexample: with a Frontend Engineer and a Backend Developer
    involved, the parallel groups of the plan contain the hard-coded pair
    Frontend Developer / Backend Architect, not the name pair of the two present
    specialists. -/
theorem c9_counterexample :
    isSubstr (str "Frontend") feAgent.name = true ∧
    isSubstr (str "Backend") bdAgent.name = true ∧
    (generatePlanWith [feAgent, bdAgent] (str "write code")).isSome = true ∧
    ((generatePlanWith [feAgent, bdAgent] (str "write code")).map
        (fun p => p.parallelGroups)).getD [] = [[fdName, baName]] ∧
    [feAgent.name, bdAgent.name] ∉
      ((generatePlanWith [feAgent, bdAgent] (str "write code")).map
        (fun p => p.parallelGroups)).getD [] ∧
    [bdAgent.name, feAgent.name] ∉
      ((generatePlanWith [feAgent, bdAgent] (str "write code")).map
        (fun p => p.parallelGroups)).getD [] := by
  with_unfolding_all decide

/-- C9, corrected claim: whenever the involved list has both a
    Frontend-named and a Backend-named specialist, the parallel groups
    contain, as one group, the fixed hard-coded name pair
    [Frontend Developer, Backend Architect], regardless of the actual names of the involved
    specialists. -/
theorem c9_amended_hardcoded_pair (agents : List Agent) (task : List Char) (p : Plan)
    (h : generatePlanWith agents task = some p)
    (hf : agents.any (fun a => isSubstr (str "Frontend") a.name) = true)
    (hb : agents.any (fun a => isSubstr (str "Backend") a.name) = true) :
    [fdName, baName] ∈ p.parallelGroups := by
  rcases generatePlanWith_parts h with ⟨seq, hseq, hag, hs, hh, hd, hp⟩
  rw [hp]
  unfold identifyParallelWork
  simp only []
  have hcond : (agents.any (fun a => isSubstr (str "Frontend") a.name)
      && agents.any (fun a => isSubstr (str "Backend") a.name)) = true := by
    rw [hf, hb]
    rfl
  rw [if_pos hcond]
  exact List.mem_append_left _ (List.mem_cons_self _ _)

theorem c9_amended_witness :
    [fdName, baName] ∈
      ((generatePlanWith [feAgent, bdAgent] (str "write code")).getD
        emptyPlan).parallelGroups :=
  c9_amended_hardcoded_pair [feAgent, bdAgent] (str "write code")
    ((generatePlanWith [feAgent, bdAgent] (str "write code")).getD emptyPlan)
    (by with_unfolding_all rfl) (by with_unfolding_all decide)
    (by with_unfolding_all decide)

/-- C10: a plan involving exactly one specialist attributes every step to
    that specialist (testing and deployment fall back to the primary), so
    its handoff list is empty. -/
theorem c10_single_specialist_plan (catalog : List Agent) (task : List Char) (p : Plan)
    (h : generatePlan catalog task = some p) (h1 : p.agents.length = 1) :
    (∀ s ∈ p.sequence, ∀ d ∈ p.agents, s.agent = d.name) ∧ p.handoffPoints = [] := by
  rcases generatePlan_parts h with ⟨agents, seq, hne, hseq, hag, hs, hh, hd, hp⟩
  have hlen : agents.length = 1 := by
    rw [hag] at h1
    simpa using h1
  obtain ⟨a, ha⟩ : ∃ a, agents = [a] := by
    cases agents with
    | nil => simp at hlen
    | cons x xs =>
      cases xs with
      | nil => exact ⟨x, rfl⟩
      | cons y ys => simp at hlen
  subst ha
  have hsteps : ∀ s ∈ seq, s.agent = a.name := by
    intro s hsmem
    have := generateSequence_step_agents hseq s hsmem
    simpa using this
  constructor
  · intro s hsm d hdm
    rw [hs] at hsm
    rw [hag] at hdm
    simp only [List.map_cons, List.map_nil, List.mem_singleton] at hdm
    rw [hdm]
    exact hsteps s hsm
  · rw [hh]
    exact generateHandoffs_nil_of_const hsteps

theorem c10_witness :
    (∀ s ∈ ((generatePlan [wAgent] (str "hello")).getD emptyPlan).sequence,
      ∀ d ∈ ((generatePlan [wAgent] (str "hello")).getD emptyPlan).agents,
        s.agent = d.name) ∧
    ((generatePlan [wAgent] (str "hello")).getD emptyPlan).handoffPoints = [] :=
  c10_single_specialist_plan [wAgent] (str "hello")
    ((generatePlan [wAgent] (str "hello")).getD emptyPlan)
    (by with_unfolding_all rfl) (by with_unfolding_all decide)

end AgencyAgents
